import Mathlib

/-!
Verification of the concurrent scroll-export engine in `src/cmd.rs`
(`pull`, `parse_response`) of elastic-tunnel-rs.

The embedding translates the Rust source into pure Lean definitions:
* JSON values (`serde_json::Value`) become the inductive `Json`;
* the per-worker slice annotation (cmd.rs lines 72-82) becomes `sliceQuery`;
* request building (lines 84-94 and 110-117) becomes `initialSearchRequest`
  and `scrollRequest`;
* `parse_response` (lines 157-167) becomes `parse_response` over a
  structural model of the HTTP response;
* the worker's fetch/send loop (lines 96-127) becomes the recursion `wrun`
  over the sequence of (parsed) responses the service would return;
* the progress-bar updates (lines 98-104, 120-124) become `pbFinal`;
* the channel / thread-pool / writer coordination (lines 42, 137-154)
  becomes the transition system `PullStep` on `PullState`;
* the value returned by `pull` (lines 152-154) becomes `pullReturn`.
-/

/-- `serde_json::Value`: an opaque key-value tree.  Objects are kept as
association lists; serde maps carry no duplicate keys, which appears as a
`Nodup` hypothesis where it matters. -/
inductive Json where
  | null : Json
  | bool (b : Bool) : Json
  | num (n : Int) : Json
  | str (s : String) : Json
  | arr (items : List Json) : Json
  | obj (fields : List (String × Json)) : Json

/-- Lookup of a top-level key in an object's field list (first match). -/
def lookupField : List (String × Json) → String → Option Json
  | [], _ => none
  | (k', v) :: rest, k => if k' = k then some v else lookupField rest k

/-- Top-level key lookup on a JSON value; `none` on non-objects. -/
def Json.lookup : Json → String → Option Json
  | .obj fields, k => lookupField fields k
  | _, _ => none

/-- `serde_json::Map::insert`: replace the value at an existing key,
otherwise add the binding.  (The real map is a `BTreeMap`, so physical key
order differs, but order is unobservable through `lookup`.) -/
def mapInsert (k : String) (v : Json) : List (String × Json) → List (String × Json)
  | [] => [(k, v)]
  | (k', v') :: rest =>
    if k' = k then (k, v) :: rest else (k', v') :: mapInsert k v rest

/-- Number of top-level occurrences of key `k` in a JSON object. -/
def Json.countKey : Json → String → Nat
  | .obj fields, k => (fields.filter (fun kv => kv.1 == k)).length
  | _, _ => 0

mutual

/-- JSON serialization (`serde_json::Value::to_string`); string escaping is
elided since document bodies are opaque to this core. -/
def Json.render : Json → String
  | .null => "null"
  | .bool true => "true"
  | .bool false => "false"
  | .num n => toString n
  | .str s => "\"" ++ s ++ "\""
  | .arr items => "[" ++ renderItems items ++ "]"
  | .obj fields => "\x7b" ++ renderFields fields ++ "\x7d"

/-- Comma-separated rendering of array items. -/
def renderItems : List Json → String
  | [] => ""
  | [x] => x.render
  | x :: rest => x.render ++ "," ++ renderItems rest

/-- Comma-separated rendering of object fields. -/
def renderFields : List (String × Json) → String
  | [] => ""
  | [(k, v)] => "\"" ++ k ++ "\":" ++ v.render
  | (k, v) :: rest => "\"" ++ k ++ "\":" ++ v.render ++ "," ++ renderFields rest

end

/-- The slice descriptor `json!({"id": slice_id, "max": slice})` from
cmd.rs lines 76-79. -/
def sliceDescriptor (slice_id slice : Nat) : Json :=
  .obj [("id", .num slice_id), ("max", .num slice)]

/-- The per-worker query preparation from cmd.rs lines 72-82: each worker
already holds its own clone of the caller's query; when `slice > 1` it
inserts the slice descriptor under the top-level key `"slice"`.  The code
calls `as_object_mut().unwrap()`, which panics on a non-object query;
that is the `none` case. -/
def sliceQuery (slice slice_id : Nat) (query : Json) : Option Json :=
  if slice > 1 then
    match query with
    | .obj fields => some (.obj (mapInsert "slice" (sliceDescriptor slice_id slice) fields))
    | _ => none
  else some query

/-- An HTTP request as this program builds one: URL, query parameters,
basic-auth credentials (user, optional password), JSON body. -/
structure HttpRequest where
  url : String
  params : List (String × String)
  auth : String × Option String
  body : Json

/-- The initial search request from cmd.rs lines 84-94:
`POST {host}/{index}/_search` with params `scroll=1m` (the string `"1m"`
is hard-coded at line 84; the `ttl` option is NOT used here) plus
`size={batch}` when a page-size hint was given, basic auth, and the
worker's (possibly slice-annotated) query as body.  The `ttl` argument is
listed to mirror the option's availability in scope; like the source, the
definition does not use it. -/
def initialSearchRequest (host index ttl : String) (batch : Option Nat)
    (user : String) (pass : Option String) (query : Json) : HttpRequest :=
  { url := host ++ "/" ++ index ++ "/_search"
    params := [("scroll", "1m")] ++
      (match batch with
       | some b => [("size", toString b)]
       | none => [])
    auth := (user, pass)
    body := query }

/-- The continuation request from cmd.rs lines 110-117:
`POST {host}/_search/scroll` with body `{scroll: ttl, scroll_id: token}`
and basic auth.  Here the configured `ttl` IS used. -/
def scrollRequest (host ttl scroll_id : String)
    (user : String) (pass : Option String) : HttpRequest :=
  { url := host ++ "/_search/scroll"
    params := []
    auth := (user, pass)
    body := .obj [("scroll", .str ttl), ("scroll_id", .str scroll_id)] }

/-- Password prompting, cmd.rs lines 30-36: a password is read from the
terminal exactly when a user was supplied on the command line. -/
def promptedForPassword (user : Option String) : Bool :=
  user.isSome

/-- The password sent with every request, cmd.rs lines 30-36: the typed
password when a user was supplied, `None` otherwise. -/
def resolvedPass (user : Option String) (typed : String) : Option String :=
  user.map (fun _ => typed)

/-- The user sent with every request, cmd.rs line 37:
`user.unwrap_or_else(|| "estunnel".to_owned())`. -/
def resolvedUser (user : Option String) : String :=
  user.getD "estunnel"

/-- One hit of a scroll response.  Modelled from the spec: the repository
file `src/elastic.rs` defining `ScrollResponse` is not under `src/`; the
spec says each element of `hits.hits[]` contains `_source` (opaque
document body). -/
structure ScrollHit where
  source : Json

/-- Modelled from the spec: `hits` of the response carries `total`
(integer) and the array of hits (`src/elastic.rs` is not under `src/`). -/
structure ScrollHits where
  total : Nat
  hits : List ScrollHit

/-- Modelled from the spec: the expected response is JSON with
`_scroll_id` (cursor token, string) and `hits` as above
(`src/elastic.rs` is not under `src/`). -/
structure ScrollResponse where
  scroll_id : String
  hits : ScrollHits

/-- Structural extraction of a hit: serde requires the `_source` field;
unknown extra fields are ignored. -/
def hitOfJson (j : Json) : Option ScrollHit :=
  (j.lookup "_source").map ScrollHit.mk

/-- Structural extraction of all hits. -/
def hitsOfJson : List Json → Option (List ScrollHit)
  | [] => some []
  | j :: rest =>
    match hitOfJson j, hitsOfJson rest with
    | some h, some hs => some (h :: hs)
    | _, _ => none

/-- Structural parse of a response body into a `ScrollResponse`.  Modelled
from the spec (serde derive on the missing `src/elastic.rs`): requires
`_scroll_id` a string, `hits.total` a non-negative integer (`u64`), and
`hits.hits` an array of hits; anything else fails.  The lexical JSON
parse (`serde_json::from_str`) is collapsed into this structural check:
a body that is not well-formed JSON has no `Json` model and likewise
fails. -/
def scrollResponseOfJson (j : Json) : Option ScrollResponse :=
  match j.lookup "_scroll_id", j.lookup "hits" with
  | some (.str sid), some hitsJson =>
    (match hitsJson.lookup "total", hitsJson.lookup "hits" with
     | some (.num t), some (.arr hs) =>
       if 0 ≤ t then (hitsOfJson hs).map (fun hits => ⟨sid, ⟨t.toNat, hits⟩⟩)
       else none
     | _, _ => none)
  | _, _ => none

/-- An HTTP response as `parse_response` sees it: status code and body.
The body is kept in parsed `Json` form; its on-the-wire text is
`body.render`. -/
structure HttpResponse where
  status : Nat
  body : Json

/-- `parse_response` from cmd.rs lines 157-167: non-200 status is an
error carrying the status code and the response body text; otherwise the
body is parsed structurally and yields the hits' `_source` bodies in hit
order (each serialized with `to_string`), the `_scroll_id` token, and
`hits.total`. -/
def parse_response (res : HttpResponse) : Except String (List String × String × Nat) :=
  if res.status ≠ 200 then
    .error ("error query es. status=" ++ toString res.status ++ ", content=" ++ res.body.render)
  else
    match scrollResponseOfJson res.body with
    | none => .error "malformed response body"
    | some r => .ok (r.hits.hits.map (fun h => h.source.render), r.scroll_id, r.hits.total)

/-- One page as the worker sees it after `parse_response`: the documents
(already serialized), the cursor token, and the slice's total count. -/
structure Page where
  docs : List String
  scroll_id : String
  total : Nat
deriving DecidableEq

/-- The worker's fetch loop, cmd.rs lines 88-127, abstracted over the
responses the service returns, each already passed through
`parse_response` (`none` = transport error, non-200 status or malformed
body; `some p` = a parsed page).  Result: (batches pushed onto the
channel in order, number of requests issued, whether the worker finished
normally).  Faithful to the source: every successfully parsed page is
sent (`tx.send` at lines 107 and 126 runs unconditionally), the loop
continues while the page was non-empty, and a parse failure panics the
worker before any send of that page.  The `[]` case marks an oracle too
short for the run and issues no request. -/
def wrun : List (Option Page) → List (List String) × Nat × Bool
  | [] => ([], 0, false)
  | none :: _ => ([], 1, false)
  | some p :: rest =>
    if p.docs.isEmpty then ([p.docs], 1, true)
    else
      let r := wrun rest
      (p.docs :: r.1, r.2.1 + 1, r.2.2)

/-- The pages a worker actually fetches from a service that would answer
with `pages`: the prefix up to and including the first empty page. -/
def fetchedPages : List Page → List Page
  | [] => []
  | p :: rest => if p.docs.isEmpty then [p] else p :: fetchedPages rest

/-- What the spec's words for the Scroll Worker predict the worker pushes
(claim C4): a non-empty page is pushed; an empty page is pushed only when
it is the *initial* page; an empty continuation page is not pushed.
This definition follows the spec's words, to be compared with `wrun`,
which follows the source. -/
def specBatchesC4 (pages : List Page) : List (List String) :=
  match pages with
  | [] => []
  | p :: _ =>
    if p.docs.isEmpty then [p.docs]
    else ((fetchedPages pages).filter (fun q => !q.docs.isEmpty)).map (fun q => q.docs)

/-- The output writer, cmd.rs lines 143-150: for each batch received, in
arrival order, write each document as one line. -/
def outputLines (arrivals : List (List String)) : List String :=
  arrivals.flatten

/-- `out` is an interleaving of the sources `srcs`: each step removes the
head of one source.  This is the arrival order at the single consumer of
the fan-in channel: FIFO per producer, arbitrary interleaving across
producers. -/
inductive Interleaves {A : Type} : List (List A) → List A → Prop where
  | done (srcs : List (List A)) (h : ∀ s ∈ srcs, s = []) :
      Interleaves srcs []
  | step (pre post : List (List A)) (x : A) (s : List A) (out : List A)
      (h : Interleaves (pre ++ s :: post) out) :
      Interleaves (pre ++ (x :: s) :: post) (x :: out)

/-- One progress-bar update per parsed page, cmd.rs lines 103-104 and
123-124: `pb.set_length(total)` then `pb.inc(docs.len())`.  State is
(length, position). -/
def pbStep (st : Nat × Nat) (p : Page) : Nat × Nat :=
  (p.total, st.2 + p.docs.length)

/-- Final progress-bar state of a worker run against service answer
`pages`: the bar starts as `ProgressBar::new(1)` (length 1, position 0,
cmd.rs line 56) and is updated once per fetched page. -/
def pbFinal (pages : List Page) : Nat × Nat :=
  (fetchedPages pages).foldl pbStep (1, 0)

/-- State of one worker thread for the coordination model: the batches it
still has to send, and whether its closure has returned (returning drops
its clone of the sender `tx`). -/
abbrev WorkerSt := List (List String) × Bool

/-- Global state of the channel / pool / writer coordination of `pull`
(cmd.rs lines 42, 70, 137-150): the workers, the bounded channel's
contents (front = oldest), whether the main clone of `tx` is still alive
(it is dropped at line 139, after `pool.join()`), and whether the
writer's `rx.iter()` loop has terminated. -/
structure PullState where
  workers : List WorkerSt
  chan : List (List String)
  mainTx : Bool
  writerDone : Bool

/-- All worker closures have returned. -/
def allWorkersDone (s : PullState) : Prop :=
  ∀ w ∈ s.workers, w.2 = true

/-- The channel is closed: every sender clone has been dropped, i.e. all
workers returned and the main clone was dropped after `pool.join()`. -/
def chanClosed (s : PullState) : Prop :=
  allWorkersDone s ∧ s.mainTx = false

/-- Interleaving semantics of `pull`'s threads.  The channel is
`crossbeam_channel::bounded(slice)` (cmd.rs line 42), so a send is
enabled only while fewer than `workers.length` batches are queued
(backpressure); `dropMainTx` models the joiner thread (lines 137-140),
enabled only once every worker returned; the writer consumes while the
channel is non-empty and stops exactly when the channel is empty and
closed (`rx.iter()` ends, lines 145-149). -/
inductive PullStep : PullState → PullState → Prop where
  | send (s : PullState) (pre post : List WorkerSt) (b : List String)
      (bs : List (List String))
      (hw : s.workers = pre ++ (b :: bs, false) :: post)
      (hcap : s.chan.length < s.workers.length) :
      PullStep s { s with workers := pre ++ (bs, false) :: post, chan := s.chan ++ [b] }
  | finish (s : PullState) (pre post : List WorkerSt)
      (hw : s.workers = pre ++ ([], false) :: post) :
      PullStep s { s with workers := pre ++ ([], true) :: post }
  | dropMainTx (s : PullState) (hall : allWorkersDone s) (hm : s.mainTx = true) :
      PullStep s { s with mainTx := false }
  | consume (s : PullState) (b : List String) (rest : List (List String))
      (hc : s.chan = b :: rest) (hw : s.writerDone = false) :
      PullStep s { s with chan := rest }
  | writerStop (s : PullState) (hc : s.chan = []) (hcl : chanClosed s)
      (hw : s.writerDone = false) :
      PullStep s { s with writerDone := true }

/-- Initial coordination state: every worker still has its whole script
to send, the channel is empty, main's `tx` is alive, the writer runs. -/
def initState (scripts : List (List (List String))) : PullState :=
  ⟨scripts.map (fun bs => (bs, false)), [], true, false⟩

/-- Termination measure for the coordination system: every step strictly
decreases it, so every execution is finite. -/
def pullMeasure (s : PullState) : Nat :=
  (s.workers.map (fun w => 2 * w.1.length + (if w.2 then 0 else 1))).sum
    + s.chan.length
    + (if s.mainTx then 1 else 0)
    + (if s.writerDone then 0 else 1)

/-- The value `pull` returns, cmd.rs lines 152-154:
`mpb.join()?; output_thread.join().unwrap(); Ok(())`.  The worker
threads' outcomes (`workerFailed`) appear nowhere in this computation: a
worker that fails panics inside the pool's closure (the `expect` calls at
lines 94, 96, 107, 118, 120, 126), `threadpool` catches the panic and
`pool.join()` returns `()` regardless, so the main thread never observes
it.  `output_thread.join().unwrap()` panics — modelled as `.error` —
exactly when the writer thread panicked on a sink error (lines 144,
147). -/
def pullReturn (workerFailed : List Bool) (sinkFailed : Bool)
    (mpbJoinResult : Except String Unit) : Except String Unit :=
  match mpbJoinResult with
  | .error e => .error e
  | .ok _ => if sinkFailed then .error "output thread panicked" else .ok ()

/-! ## Helper lemmas -/

theorem lookupField_mapInsert_self (k : String) (v : Json) (fields : List (String × Json)) :
    lookupField (mapInsert k v fields) k = some v := by
  induction fields with
  | nil => simp [mapInsert, lookupField]
  | cons kv rest ih =>
    obtain ⟨k', v'⟩ := kv
    by_cases h : k' = k
    · simp [mapInsert, lookupField, h]
    · simp [mapInsert, lookupField, h, ih]

theorem lookupField_mapInsert_other (k k' : String) (v : Json)
    (fields : List (String × Json)) (h : k' ≠ k) :
    lookupField (mapInsert k v fields) k' = lookupField fields k' := by
  have hne : ¬ k = k' := fun hh => h hh.symm
  induction fields with
  | nil => simp [mapInsert, lookupField, hne]
  | cons kv rest ih =>
    obtain ⟨k₀, v₀⟩ := kv
    by_cases h₀ : k₀ = k
    · subst h₀
      simp [mapInsert, lookupField, hne]
    · simp [mapInsert, lookupField, h₀, ih]

theorem filter_key_eq_nil (k : String) (fields : List (String × Json))
    (h : k ∉ fields.map Prod.fst) :
    fields.filter (fun kv => kv.1 == k) = [] := by
  induction fields with
  | nil => simp
  | cons kv rest ih =>
    simp only [List.map_cons, List.mem_cons] at h
    push_neg at h
    have hne : kv.1 ≠ k := fun hh => h.1 hh.symm
    simp [List.filter_cons, hne, ih h.2]

theorem filter_key_mapInsert (k : String) (v : Json) (fields : List (String × Json))
    (h : (fields.map Prod.fst).Nodup) :
    ((mapInsert k v fields).filter (fun kv => kv.1 == k)).length = 1 := by
  induction fields with
  | nil => simp [mapInsert]
  | cons kv rest ih =>
    obtain ⟨k', v'⟩ := kv
    simp only [List.map_cons, List.nodup_cons] at h
    by_cases hk : k' = k
    · subst hk
      have : rest.filter (fun kv => kv.1 == k') = [] := filter_key_eq_nil _ _ h.1
      simp [mapInsert, List.filter_cons, this]
    · simp [mapInsert, List.filter_cons, hk, ih h.2]

theorem wrun_batches (pages : List Page) :
    (wrun (pages.map some)).1 = (fetchedPages pages).map (fun p => p.docs) := by
  induction pages with
  | nil => simp [wrun, fetchedPages]
  | cons p rest ih =>
    by_cases h : p.docs.isEmpty
    · simp [wrun, fetchedPages, h]
    · simp [wrun, fetchedPages, h, ih]

/-! ## Claims -/

/-- C2: for every input query and slice count n, when n = 1 the worker's
query is the input query unchanged; when n > 1 each worker i gets a copy
with exactly one `{id, max}` slice descriptor under the top-level key
`"slice"` (id = i, max = n) and every other top-level key unchanged.  The
embedding is pure, so the caller's query value is never mutated: each
worker transforms its own clone. -/
theorem c2_slice_planner (query : Json) (n i : Nat) :
    (n = 1 → sliceQuery n i query = some query) ∧
    (n > 1 → ∀ fields, query = Json.obj fields → (fields.map Prod.fst).Nodup →
      ∃ q', sliceQuery n i query = some q' ∧
        q'.lookup "slice" = some (sliceDescriptor i n) ∧
        (∀ k, k ≠ "slice" → q'.lookup k = query.lookup k) ∧
        q'.countKey "slice" = 1) := by
  constructor
  · intro h
    subst h
    simp [sliceQuery]
  · intro hn fields hq hnd
    subst hq
    refine ⟨Json.obj (mapInsert "slice" (sliceDescriptor i n) fields),
      by simp [sliceQuery, hn], ?_, ?_, ?_⟩
    · simp [Json.lookup, lookupField_mapInsert_self]
    · intro k hk
      simp [Json.lookup, lookupField_mapInsert_other _ _ _ _ hk]
    · simpa [Json.countKey] using filter_key_mapInsert "slice" (sliceDescriptor i n) fields hnd

/-- C2 witness: concrete instantiation for a two-slice run on the query
`{"q": null}`, worker 0. -/
theorem c2_slice_planner_w :
    ∃ q', sliceQuery 2 0 (Json.obj [("q", Json.null)]) = some q' ∧
      q'.lookup "slice" = some (sliceDescriptor 0 2) ∧
      (∀ k, k ≠ "slice" → q'.lookup k = (Json.obj [("q", Json.null)]).lookup k) ∧
      q'.countKey "slice" = 1 :=
  (c2_slice_planner (Json.obj [("q", Json.null)]) 2 0).2 (by decide)
    [("q", Json.null)] rfl (by simp)

/-- C3: the claim says the initial search request carries
`scroll={ttl}`; the code (cmd.rs line 84) hard-codes `"1m"` and never
uses the configured `ttl` option for the initial request, while the
continuation request (line 114) does use it.  With the option set to
`"5m"`, the initial request still carries `scroll=1m`. -/
theorem c3_initial_request_hardcodes_scroll_ttl :
    (initialSearchRequest "http://localhost:9200" "idx" "5m" none "estunnel" none Json.null).params
      = [("scroll", "1m")] ∧
    (scrollRequest "http://localhost:9200" "5m" "tok" "estunnel" none).body.lookup "scroll"
      = some (Json.str "5m") ∧
    ("1m" : String) ≠ "5m" :=
  ⟨rfl, rfl, by decide⟩

/-- C10: when no user option is supplied, no password is prompted for,
and both the initial and the continuation request authenticate as user
`"estunnel"` with no password; a password is prompted exactly when a
user is supplied. -/
theorem c10_default_credentials (host index ttl sid typed : String)
    (batch : Option Nat) (q : Json) :
    promptedForPassword none = false ∧
    (initialSearchRequest host index ttl batch
        (resolvedUser none) (resolvedPass none typed) q).auth = ("estunnel", none) ∧
    (scrollRequest host ttl sid
        (resolvedUser none) (resolvedPass none typed)).auth = ("estunnel", none) ∧
    (∀ u : String, promptedForPassword (some u) = true) :=
  ⟨rfl, rfl, rfl, fun _ => rfl⟩

/-- C10 witness: concrete instantiation. -/
theorem c10_default_credentials_w :
    promptedForPassword none = false ∧
    (initialSearchRequest "http://h" "idx" "1m" none
        (resolvedUser none) (resolvedPass none "secret") Json.null).auth = ("estunnel", none) ∧
    (scrollRequest "http://h" "1m" "tok"
        (resolvedUser none) (resolvedPass none "secret")).auth = ("estunnel", none) ∧
    (∀ u : String, promptedForPassword (some u) = true) :=
  c10_default_credentials "http://h" "idx" "1m" "tok" "secret" none Json.null

/-- C6: `parse_response` errs exactly on non-200 status or a body that
fails structural parsing; the non-200 error carries the status code and
the response body text; on success it yields the hits' serialized
`_source` bodies in hit order, the `_scroll_id` token, and `hits.total`. -/
theorem c6_parse_response_contract (res : HttpResponse) :
    ((∃ v, parse_response res = Except.ok v) ↔
      (res.status = 200 ∧ ∃ r, scrollResponseOfJson res.body = some r)) ∧
    (res.status ≠ 200 →
      parse_response res = Except.error
        ("error query es. status=" ++ toString res.status ++ ", content=" ++ res.body.render)) ∧
    (∀ r, res.status = 200 → scrollResponseOfJson res.body = some r →
      parse_response res
        = Except.ok (r.hits.hits.map (fun h => h.source.render), r.scroll_id, r.hits.total)) := by
  refine ⟨⟨?_, ?_⟩, ?_, ?_⟩
  · intro ⟨v, hv⟩
    by_cases hs : res.status = 200
    · refine ⟨hs, ?_⟩
      cases hb : scrollResponseOfJson res.body with
      | none => simp [parse_response, hs, hb] at hv
      | some r => exact ⟨r, rfl⟩
    · simp [parse_response, hs] at hv
  · intro ⟨hs, r, hb⟩
    exact ⟨(r.hits.hits.map (fun h => h.source.render), r.scroll_id, r.hits.total),
      by simp [parse_response, hs, hb]⟩
  · intro hs
    simp [parse_response, hs]
  · intro r hs hb
    simp [parse_response, hs, hb]

/-- C6 witness: a 500 response yields the error carrying status and body
text; a well-formed 200 response yields documents, token and total. -/
theorem c6_parse_response_contract_w :
    parse_response ⟨500, Json.str "oops"⟩
      = Except.error ("error query es. status=500, content=" ++ (Json.str "oops").render) ∧
    parse_response
      ⟨200, Json.obj [("_scroll_id", Json.str "tok"),
        ("hits", Json.obj [("total", Json.num 2),
          ("hits", Json.arr [Json.obj [("_source", Json.str "d1")]])])]⟩
      = Except.ok ([(Json.str "d1").render], "tok", 2) :=
  ⟨(c6_parse_response_contract ⟨500, Json.str "oops"⟩).2.1 (by decide),
   (c6_parse_response_contract _).2.2 ⟨"tok", ⟨2, [⟨Json.str "d1"⟩]⟩⟩ rfl rfl⟩

/-- C7: when the (k+1)-th request of a worker fails (transport error,
non-success status or malformed body, all of which panic the worker via
`expect` before any send of that page), the worker has issued exactly
k + 1 requests — the failing one is never retried and nothing beyond it
is requested — and the batches pushed are exactly the k pages fetched
before the failure. -/
theorem c7_failure_aborts_worker (good : List Page) (rest : List (Option Page))
    (hgood : ∀ p ∈ good, p.docs ≠ []) :
    wrun (good.map (fun p => some p) ++ none :: rest)
      = (good.map (fun p => p.docs), good.length + 1, false) := by
  induction good with
  | nil => simp [wrun]
  | cons p g ih =>
    have hp : p.docs.isEmpty = false := by
      rcases h : p.docs.isEmpty with _ | _
      · rfl
      · exact absurd (List.isEmpty_iff.mp h) (hgood p (List.mem_cons_self p g))
    have ihg := ih (fun q hq => hgood q (List.mem_cons_of_mem p hq))
    simp [wrun, hp, ihg]

/-- C7 witness: the second request fails; one page was fetched before, so
the worker issues exactly 2 requests and pushes exactly one batch, even
though the oracle would have answered a third request. -/
theorem c7_failure_aborts_worker_w :
    wrun [some ⟨["a"], "s1", 7⟩, none, some ⟨["b"], "s2", 7⟩]
      = ([["a"]], 2, false) :=
  c7_failure_aborts_worker [⟨["a"], "s1", 7⟩] [some ⟨["b"], "s2", 7⟩] (by decide)

/-- C4 counterexample: the claim says an empty page fetched via the
continuation protocol is not pushed.  On the run whose initial page holds
one document and whose first continuation page is empty, the worker
pushes both pages — `tx.send` at cmd.rs line 126 runs unconditionally —
so the pushed batches are `[["a"], []]`, while the spec's words
(`specBatchesC4`) predict `[["a"]]`. -/
theorem c4_empty_continuation_pushed_cex :
    (wrun [some ⟨["a"], "c1", 3⟩, some ⟨[], "c2", 3⟩]).1 = [["a"], []] ∧
    specBatchesC4 [⟨["a"], "c1", 3⟩, ⟨[], "c2", 3⟩] = [["a"]] ∧
    ([["a"], []] : List (List String)) ≠ [["a"]] :=
  ⟨rfl, rfl, by decide⟩

/-- C4 amended: every fetched page is pushed as a Batch, empty or not;
a successfully terminating worker pushes exactly its fetched pages'
document lists, in order, the terminal empty page included (so every
worker still sends at least one Batch, and an empty page never occurs
strictly inside the pushed sequence). -/
theorem c4_every_fetched_page_pushed (pages : List Page)
    (hok : (wrun (pages.map some)).2.2 = true) :
    (wrun (pages.map some)).1 = (fetchedPages pages).map (fun p => p.docs) :=
  wrun_batches pages

/-- C4 witness: a one-document page followed by the terminal empty page;
both are pushed. -/
theorem c4_every_fetched_page_pushed_w :
    (wrun [some ⟨["a"], "c1", 3⟩, some ⟨[], "c2", 3⟩]).1 = [["a"], []] :=
  c4_every_fetched_page_pushed [⟨["a"], "c1", 3⟩, ⟨[], "c2", 3⟩] rfl

theorem pb_foldl (l : List Page) (st : Nat × Nat) (h : l ≠ []) :
    (l.foldl pbStep st).1 = (l.getLast h).total ∧
    (l.foldl pbStep st).2 = st.2 + (l.map (fun p => p.docs.length)).sum := by
  induction l generalizing st with
  | nil => exact absurd rfl h
  | cons p rest ih =>
    cases rest with
    | nil => simp [pbStep, List.getLast]
    | cons q tail =>
      have h2 : q :: tail ≠ [] := List.cons_ne_nil q tail
      constructor
      · rw [List.foldl_cons, (ih (pbStep st p) h2).1, List.getLast_cons h2]
      · rw [List.foldl_cons, (ih (pbStep st p) h2).2]
        simp [pbStep]
        omega

/-- C5 counterexample: the claim says a slice's bar length is the total
reported by the *first* page response.  The code re-runs
`pb.set_length(total)` on every response (cmd.rs line 123), so when the
first response reports total 3 and the second total 5, the final bar
length is 5, not 3. -/
theorem c5_bar_length_cex :
    (pbFinal [⟨["a"], "c1", 3⟩, ⟨[], "c2", 5⟩]).1 = 5 ∧
    (⟨["a"], "c1", 3⟩ : Page).total = 3 ∧
    (5 : Nat) ≠ 3 :=
  ⟨rfl, rfl, by decide⟩

/-- C5 amended: a slice's bar length is the total reported by the most
recent page response of that slice (so it equals the first response's
total whenever all responses of the slice agree, the common case), its
position is the number of documents fetched so far, and slice totals are
never summed into a global figure: `pbFinal` is computed from that
slice's pages alone. -/
theorem c5_bar_tracks_latest_total (pages : List Page)
    (h : fetchedPages pages ≠ []) :
    (pbFinal pages).1 = ((fetchedPages pages).getLast h).total ∧
    (pbFinal pages).2 = ((fetchedPages pages).map (fun p => p.docs.length)).sum := by
  have hp := pb_foldl (fetchedPages pages) (1, 0) h
  simpa [pbFinal] using hp

/-- C5 witness: two pages with totals 3 then 5; final bar state (5, 1). -/
theorem c5_bar_tracks_latest_total_w :
    (pbFinal [⟨["a"], "c1", 3⟩, ⟨[], "c2", 5⟩]).1 = 5 ∧
    (pbFinal [⟨["a"], "c1", 3⟩, ⟨[], "c2", 5⟩]).2 = 1 := by
  have h := c5_bar_tracks_latest_total [⟨["a"], "c1", 3⟩, ⟨[], "c2", 5⟩] (by decide)
  exact ⟨h.1.trans rfl, h.2.trans rfl⟩

/-- C8: the run is NOT reported as failed when a worker fails.  A failing
worker panics inside the pool closure; `threadpool` absorbs the panic and
`pull`'s main thread (cmd.rs lines 152-154) consults only `mpb.join()`
and the writer thread's result, so `pull` returns `Ok(())` for a run
whose only worker failed — identical to the all-workers-succeeded run.
(A sink failure, by contrast, does propagate through
`output_thread.join().unwrap()`.) -/
theorem c8_worker_failure_unreported :
    pullReturn [true] false (Except.ok ()) = Except.ok () ∧
    pullReturn [true] false (Except.ok ()) = pullReturn [false] false (Except.ok ()) ∧
    pullReturn [false] true (Except.ok ()) = Except.error "output thread panicked" :=
  ⟨rfl, rfl, rfl⟩

theorem interleaves_perm {A : Type} {srcs : List (List A)} {out : List A}
    (h : Interleaves srcs out) : srcs.flatten.Perm out := by
  induction h with
  | done srcs hall =>
    rw [List.flatten_eq_nil_iff.mpr hall]
  | step pre post x s out h ih =>
    have e1 : (pre ++ (x :: s) :: post).flatten
        = pre.flatten ++ x :: (s ++ post.flatten) := by
      simp [List.flatten_append]
    have e2 : (pre ++ s :: post).flatten = pre.flatten ++ (s ++ post.flatten) := by
      simp [List.flatten_append]
    rw [e1]
    refine List.Perm.trans List.perm_middle ?_
    rw [← e2]
    exact List.Perm.cons x ih

/-- C1: in a run with N ≥ 1 slices where every worker completes
successfully, the number of lines the writer emits equals the sum, over
all slices, of the number of documents in every page fetched for that
slice (the terminal empty page contributing zero).  `arrivals` is any
interleaving of the workers' batch sequences, as delivered by the fan-in
channel; the writer emits one line per document of each batch in arrival
order. -/
theorem sends_sum_eq (slices : List (List Page))
    (sends : List (List (List String)))
    (hok : List.Forall₂ (fun pages bs =>
        (wrun (pages.map some)).2.2 = true ∧ (wrun (pages.map some)).1 = bs) slices sends) :
    (sends.map (fun bs => (bs.map List.length).sum)).sum
      = (slices.map (fun pages =>
          ((fetchedPages pages).map (fun p => p.docs.length)).sum)).sum := by
  induction hok with
  | nil => rfl
  | cons hpair htail ih =>
    simp only [List.map_cons, List.sum_cons, ih]
    congr 1
    rcases hpair with ⟨hoky, hbs⟩
    rw [← hbs, wrun_batches, List.map_map]
    rfl

theorem c1_output_line_count (slices : List (List Page))
    (sends : List (List (List String))) (arrivals : List (List String))
    (hN : 1 ≤ slices.length)
    (hok : List.Forall₂ (fun pages bs =>
        (wrun (pages.map some)).2.2 = true ∧ (wrun (pages.map some)).1 = bs) slices sends)
    (hmix : Interleaves sends arrivals) :
    (outputLines arrivals).length
      = (slices.map (fun pages =>
          ((fetchedPages pages).map (fun p => p.docs.length)).sum)).sum := by
  have hperm : sends.flatten.Perm arrivals := interleaves_perm hmix
  have hlen : (outputLines arrivals).length = (arrivals.map List.length).sum :=
    List.length_flatten arrivals
  have hps : (sends.flatten.map List.length).sum = (arrivals.map List.length).sum :=
    (hperm.map List.length).sum_eq
  have hsend : (sends.flatten.map List.length).sum
      = (sends.map (fun bs => (bs.map List.length).sum)).sum := by
    rw [List.map_flatten, List.sum_flatten, List.map_map]
    rfl
  rw [hlen, ← hps, hsend, sends_sum_eq slices sends hok]

/-- C1 witness: one slice whose worker fetches page `["a"]` and then the
terminal empty page; the writer emits exactly 1 line. -/
theorem c1_output_line_count_w :
    (outputLines [["a"], []]).length = 1 :=
  c1_output_line_count [[⟨["a"], "c1", 3⟩, ⟨[], "c2", 3⟩]] [[["a"], []]] [["a"], []]
    (by decide) (List.Forall₂.cons ⟨rfl, rfl⟩ List.Forall₂.nil)
    (Interleaves.step [] [] ["a"] [[]] [[]]
      (Interleaves.step [] [] [] [] []
        (Interleaves.done [[]] (by simp))))

theorem pull_writerDone_allDone (scripts : List (List (List String))) (s : PullState)
    (hre : Relation.ReflTransGen PullStep (initState scripts) s) :
    s.writerDone = true → allWorkersDone s := by
  induction hre with
  | refl => intro hw; simp [initState] at hw
  | tail hab hbc ih =>
    intro hw
    cases hbc with
    | send pre post b bs hwk hcap =>
      have hall := ih hw
      rename_i mid
      have hmem : ((b :: bs, false) : WorkerSt) ∈ mid.workers := by
        rw [hwk]; exact List.mem_append_right _ (List.mem_cons_self _ _)
      have hfa := hall _ hmem
      simp at hfa
    | finish pre post hwk =>
      have hall := ih hw
      rename_i mid
      have hmem : (([], false) : WorkerSt) ∈ mid.workers := by
        rw [hwk]; exact List.mem_append_right _ (List.mem_cons_self _ _)
      have hfa := hall _ hmem
      simp at hfa
    | dropMainTx hall hm => exact ih hw
    | consume b rest hc hwr => exact ih hw
    | writerStop hc hcl hwr => exact hcl.1

theorem pull_progress (s : PullState) (h : s.writerDone = false) :
    ∃ t, PullStep s t := by
  by_cases hall : allWorkersDone s
  · by_cases hm : s.mainTx = true
    · exact ⟨_, PullStep.dropMainTx s hall hm⟩
    · have hmf : s.mainTx = false := by
        rcases hb : s.mainTx with _ | _
        · rfl
        · exact absurd hb hm
      cases hchan : s.chan with
      | nil => exact ⟨_, PullStep.writerStop s hchan ⟨hall, hmf⟩ h⟩
      | cons b rest => exact ⟨_, PullStep.consume s b rest hchan h⟩
  · have hex : ∃ w ∈ s.workers, w.2 = false := by
      unfold allWorkersDone at hall
      push_neg at hall
      obtain ⟨w, hmem, hne⟩ := hall
      refine ⟨w, hmem, ?_⟩
      rcases hb : w.2 with _ | _
      · rfl
      · exact absurd hb hne
    obtain ⟨w, hmem, hwf⟩ := hex
    obtain ⟨pre, post, hsplit⟩ := List.append_of_mem hmem
    obtain ⟨batches, flag⟩ := w
    simp only at hwf
    subst hwf
    cases batches with
    | nil => exact ⟨_, PullStep.finish s pre post hsplit⟩
    | cons b bs =>
      by_cases hcap : s.chan.length < s.workers.length
      · exact ⟨_, PullStep.send s pre post b bs hsplit hcap⟩
      · have hw1 : 0 < s.workers.length := by
          have hlen := congrArg List.length hsplit
          simp [List.length_append] at hlen
          omega
        have hch : s.chan ≠ [] := by
          intro hnil
          apply hcap
          rw [hnil]
          simpa using hw1
        cases hchan : s.chan with
        | nil => exact absurd hchan hch
        | cons b2 rest => exact ⟨_, PullStep.consume s b2 rest hchan h⟩

theorem pull_measure_decreases (s t : PullState) (h : PullStep s t) :
    pullMeasure t < pullMeasure s := by
  cases h with
  | send pre post b bs hwk hcap =>
    simp [pullMeasure, hwk, List.map_append, List.sum_append]
    omega
  | finish pre post hwk =>
    simp [pullMeasure, hwk, List.map_append, List.sum_append]
  | dropMainTx hall hm =>
    simp [pullMeasure, hm]
  | consume b rest hc hwr =>
    simp [pullMeasure, hc]
  | writerStop hc hcl hwr =>
    simp [pullMeasure, hwr]

/-- C9: channel-close discipline of `pull`.  In every reachable state of
the coordination system: (1) if the writer's loop has terminated, every
worker has terminated (the channel closes only after `pool.join()`,
i.e. after all N workers stopped sending, so the writer never finishes
early); (2) whenever some worker still has a batch to send, the channel
is not closed — no send can happen after the close; (3) while the writer
has not terminated some step is enabled (the system cannot deadlock
before the writer finishes); (4) every step strictly decreases
`pullMeasure`, so every execution is finite.  (3) and (4) together give
the liveness half: every maximal run ends, and it can only end in a
state whose writer has terminated — the writer does not hang after all
workers finish. -/
theorem c9_channel_close_discipline (scripts : List (List (List String)))
    (s : PullState)
    (hre : Relation.ReflTransGen PullStep (initState scripts) s) :
    (s.writerDone = true → allWorkersDone s) ∧
    (∀ pre post b bs, s.workers = pre ++ ((b :: bs), false) :: post → ¬ chanClosed s) ∧
    (s.writerDone = false → ∃ t, PullStep s t) ∧
    (∀ t, PullStep s t → pullMeasure t < pullMeasure s) := by
  refine ⟨pull_writerDone_allDone scripts s hre, ?_, pull_progress s,
    fun t ht => pull_measure_decreases s t ht⟩
  intro pre post b bs hwk hcl
  have hmem : ((b :: bs, false) : WorkerSt) ∈ s.workers := by
    rw [hwk]; exact List.mem_append_right _ (List.mem_cons_self _ _)
  have hfa := hcl.1 _ hmem
  simp at hfa

/-- C9 witness: the single-slice system whose worker sends one batch,
at its initial state. -/
theorem c9_channel_close_discipline_w :
    ((initState [[["a"]]]).writerDone = true → allWorkersDone (initState [[["a"]]])) ∧
    (∀ pre post b bs, (initState [[["a"]]]).workers = pre ++ ((b :: bs), false) :: post →
      ¬ chanClosed (initState [[["a"]]])) ∧
    ((initState [[["a"]]]).writerDone = false → ∃ t, PullStep (initState [[["a"]]]) t) ∧
    (∀ t, PullStep (initState [[["a"]]]) t →
      pullMeasure t < pullMeasure (initState [[["a"]]])) :=
  c9_channel_close_discipline [[["a"]]] (initState [[["a"]]]) Relation.ReflTransGen.refl
